import Mathlib

/-!
Verification of the `lss` linear-system library (index utilities, vector
transformation pipelines, generic file-read dispatch, LAPACK solve adapter).
Definitions are shallow embeddings of the C++ sources
`cf3/lss/reference/lss_utilities.hpp` and `cf3/lss/LAPACK.hpp`.
`size_t` is modelled as `Nat` (values in range `0 .. 2^64 - 1`); the native
LAPACK routines `dgesv_` / `sgesv_` are external and are modelled as explicit
function parameters obeying the documented call contract.
-/

/-- Largest representable `size_t` value (64-bit platform). -/
def SIZE_MAX : Nat := 2 ^ 64 - 1

/-- Index pair, fundamental dereferencing type (`struct idx_t`). -/
structure idx_t where
  i : Nat
  j : Nat
deriving DecidableEq

/-- Default-constructed `idx_t()`: both coordinates are
`std::numeric_limits<size_t>::max()` (the sentinel). -/
def idx_t.default : idx_t := ⟨SIZE_MAX, SIZE_MAX⟩

/-- Embedding of `idx_t::operator<`:
`i<o.i? true : i>o.i? false : (j<o.j)`. -/
def idx_t.lt (a b : idx_t) : Bool :=
  if a.i < b.i then true else if b.i < a.i then false else decide (a.j < b.j)

/-- Embedding of `idx_t::operator>`: `idx_t(_other) < *this`. -/
def idx_t.gt (a b : idx_t) : Bool := idx_t.lt b a

/-- Embedding of `idx_t::is_valid_size`:
`operator>(idx_t(0,0)) && operator<(idx_t())`. -/
def idx_t.is_valid_size (p : idx_t) : Bool :=
  idx_t.gt p ⟨0, 0⟩ && idx_t.lt p idx_t.default

/-- Embedding of `idx_t::is_square_size`: `i==j`. -/
def idx_t.is_square_size (p : idx_t) : Bool := decide (p.i = p.j)

/- -- Vector transformation operations (`lss_utilities.hpp`, lines 139-184).
Each C++ struct exposes `static void apply(std::vector<size_t>& v, e)`;
the embedding is the corresponding in-to-out function on `List Nat`. -/

/-- Auxiliary for `std::unique`: `prev` is the last element kept; an element
equal to it is dropped, a different element is kept and becomes the new
`prev`. -/
def uniqueConsecAux (prev : Nat) : List Nat → List Nat
  | [] => []
  | b :: rest =>
      if prev = b then uniqueConsecAux prev rest
      else b :: uniqueConsecAux b rest

/-- Embedding of `std::unique` followed by `erase`: remove consecutive
duplicate elements, keeping the first of each run. -/
def uniqueConsec : List Nat → List Nat
  | [] => []
  | a :: rest => a :: uniqueConsecAux a rest

/-- Embedding of `vector_sort_unique::apply`: `std::sort` then
`v.erase(std::unique(...), v.end())`. The second argument is ignored by the
source. -/
def vector_sort_unique (v : List Nat) (_e : Nat) : List Nat :=
  uniqueConsec (List.insertionSort (· ≤ ·) v)

/-- Embedding of `vector_element_push_front::apply`:
`v.insert(v.begin(), e)`. -/
def vector_element_push_front (v : List Nat) (e : Nat) : List Nat := e :: v

/-- Embedding of `vector_element_push_back::apply`: `v.push_back(e)`. -/
def vector_element_push_back (v : List Nat) (e : Nat) : List Nat := v ++ [e]

/-- Embedding of `vector_element_remove::apply`: erase every element equal to
`e` (`std::remove_if` with the `equal_to` functor). -/
def vector_element_remove (v : List Nat) (e : Nat) : List Nat :=
  v.filter (fun x => decide (x ≠ e))

/-- Embedding of the `add_value` functor body inside `vector_add_value`: it
computes `static_cast<size_t>(static_cast<int>(v) + diff)` and RETURNS this
value; it never assigns through its reference parameter. Conversion to
`size_t` wraps modulo `2^64`. -/
def add_value_fn (diff : Int) (v : Nat) : Nat :=
  (((v : Int) + diff).emod (2 ^ 64)).toNat

/-- Embedding of `vector_add_value::apply`: `std::for_each` calls the
`add_value` functor on every element and discards its return value; since the
functor does not write through its reference, every element is left as it
was. -/
def vector_add_value (v : List Nat) (e : Int) : List Nat :=
  v.map (fun x =>
    let _ := add_value_fn e x
    x)

/-- Embedding of the `vector_sorted_t` pipeline
(`transform_list_t< vector_sort_unique, transform_list_t<
vector_element_push_back > >`); the nested transformation is applied first:
push back the pivot, then sort and deduplicate. -/
def vector_sorted_t (v : List Nat) (e : Nat) : List Nat :=
  vector_sort_unique (vector_element_push_back v e) e

/-- Embedding of the `vector_sorted_diagonal_first_t` pipeline
(`transform_list_t< vector_element_push_front, transform_list_t<
vector_sort_unique, transform_list_t< vector_element_remove > > >`); applied
innermost first: remove the pivot, sort and deduplicate, push the pivot to
the front. -/
def vector_sorted_diagonal_first_t (v : List Nat) (e : Nat) : List Nat :=
  vector_element_push_front (vector_sort_unique (vector_element_remove v e) e) e

/-- Intended (specified) behaviour of the offset-shift operation: every
element shifted by the delta. Stated only to express what the code fails to
do. -/
def vector_add_value_specified (v : List Nat) (e : Int) : List Nat :=
  v.map (add_value_fn e)

/-- Unfolding equation: a leading duplicate of the kept element is dropped. -/
theorem uniqueConsecAux_cons_self (p : Nat) (rest : List Nat) :
    uniqueConsecAux p (p :: rest) = uniqueConsecAux p rest := by
  simp [uniqueConsecAux]

/-- Unfolding equation: a differing element is kept and becomes the new
reference element. -/
theorem uniqueConsecAux_cons_ne {p b : Nat} (h : p ≠ b) (rest : List Nat) :
    uniqueConsecAux p (b :: rest) = b :: uniqueConsecAux b rest := by
  simp [uniqueConsecAux, h]

/-- Membership is not changed by dropping consecutive duplicates (auxiliary
form, with the last kept element `p` put back in front). -/
theorem mem_cons_uniqueConsecAux (l : List Nat) :
    ∀ p x : Nat, x ∈ p :: uniqueConsecAux p l ↔ x ∈ p :: l := by
  induction l with
  | nil => intro p x; rfl
  | cons b rest ih =>
      intro p x
      by_cases hpb : p = b
      · subst hpb
        rw [uniqueConsecAux_cons_self]
        have h2 := ih p x
        simp only [List.mem_cons] at h2 ⊢
        tauto
      · rw [uniqueConsecAux_cons_ne hpb]
        have h2 := ih b x
        simp only [List.mem_cons] at h2 ⊢
        tauto

/-- Membership is preserved by `uniqueConsec`. -/
theorem mem_uniqueConsec (l : List Nat) (x : Nat) :
    x ∈ uniqueConsec l ↔ x ∈ l := by
  cases l with
  | nil => rfl
  | cons a rest => exact mem_cons_uniqueConsecAux rest a x

/-- Dropping consecutive duplicates turns a weakly ascending chain into a
strictly ascending one. -/
theorem chain_lt_uniqueConsecAux (l : List Nat) :
    ∀ p : Nat, List.Chain (· ≤ ·) p l →
      List.Chain (· < ·) p (uniqueConsecAux p l) := by
  induction l with
  | nil => intro p _; exact List.Chain.nil
  | cons b rest ih =>
      intro p hch
      rcases List.chain_cons.1 hch with ⟨hpb, hrest⟩
      by_cases hpb' : p = b
      · subst hpb'
        rw [uniqueConsecAux_cons_self]
        exact ih p hrest
      · rw [uniqueConsecAux_cons_ne hpb']
        exact List.chain_cons.2 ⟨lt_of_le_of_ne hpb hpb', ih b hrest⟩

/-- a weakly sorted list becomes strictly sorted after `uniqueConsec`. -/
theorem sorted_lt_uniqueConsec {l : List Nat}
    (h : List.Sorted (· ≤ ·) l) : List.Sorted (· < ·) (uniqueConsec l) := by
  cases l with
  | nil => exact List.sorted_nil
  | cons a rest =>
      have hch : List.Chain (· ≤ ·) a rest := List.chain_iff_pairwise.2 h
      exact List.chain_iff_pairwise.1 (chain_lt_uniqueConsecAux rest a hch)

/-- Result of `vector_sort_unique` is strictly ascending. -/
theorem vector_sort_unique_sorted (v : List Nat) (e : Nat) :
    List.Sorted (· < ·) (vector_sort_unique v e) :=
  sorted_lt_uniqueConsec (List.sorted_insertionSort _ v)

/-- Membership is preserved by `vector_sort_unique`. -/
theorem mem_vector_sort_unique (v : List Nat) (e x : Nat) :
    x ∈ vector_sort_unique v e ↔ x ∈ v := by
  unfold vector_sort_unique
  rw [mem_uniqueConsec]
  exact List.mem_insertionSort _

/-- Strictly sorted lists with the same members are equal. -/
theorem sorted_lt_eq_of_mem_iff {l₁ l₂ : List Nat}
    (h₁ : List.Sorted (· < ·) l₁) (h₂ : List.Sorted (· < ·) l₂)
    (hm : ∀ x, x ∈ l₁ ↔ x ∈ l₂) : l₁ = l₂ :=
  List.eq_of_perm_of_sorted
    ((List.perm_ext_iff_of_nodup h₁.nodup h₂.nodup).2 hm) h₁ h₂

/-- `vector_sort_unique` fixes lists that are already strictly sorted. -/
theorem vector_sort_unique_eq_self {v : List Nat} (e : Nat)
    (h : List.Sorted (· < ·) v) : vector_sort_unique v e = v :=
  sorted_lt_eq_of_mem_iff (vector_sort_unique_sorted v e) h
    (fun x => mem_vector_sort_unique v e x)

/-- C3: the claim states `vector_add_value` adds the delta to every element;
the code applies `std::for_each` with a functor that only returns the shifted
value and never writes it back, so the vector is unchanged. Evaluation at the
failing input `v = [1, 2]`, `d = 1`: the code yields `[1, 2]`, not `[2, 3]`;
the specified behaviour would yield `[2, 3]`. -/
theorem vector_add_value_noop_at_failing_input :
    vector_add_value [1, 2] 1 = [1, 2]
    ∧ vector_add_value [1, 2] 1 ≠ [1 + 1, 2 + 1]
    ∧ vector_add_value_specified [1, 2] 1 = [2, 3] :=
  ⟨rfl, by decide, by decide⟩

/-- C4 counterexample: the claim states `is_valid_size()` is false whenever
the first coordinate is 0, but the code compares lexicographically, so the
pair (0, 5) is strictly greater than (0, 0) and strictly below the sentinel
and is reported valid. -/
theorem is_valid_size_true_at_zero_row_pair :
    idx_t.is_valid_size ⟨0, 5⟩ = true := by decide

/-- C4 (amended): `is_valid_size()` is false for (0,0) and for the default
sentinel pair, and for any in-range pair it holds iff the pair is neither
(0,0) nor the sentinel — i.e. validity is the lexicographic condition
strictly above (0,0) and strictly below the sentinel, not a componentwise
one; in particular (0, k) with k ≥ 1 is reported valid. -/
theorem is_valid_size_characterization (p : idx_t)
    (hi : p.i ≤ SIZE_MAX) (hj : p.j ≤ SIZE_MAX) :
    idx_t.is_valid_size ⟨0, 0⟩ = false
    ∧ idx_t.is_valid_size idx_t.default = false
    ∧ (idx_t.is_valid_size p = true ↔ (p ≠ ⟨0, 0⟩ ∧ p ≠ idx_t.default)) := by
  refine ⟨by decide, by decide, ?_⟩
  obtain ⟨pi, pj⟩ := p
  simp only [idx_t.is_valid_size, idx_t.gt, idx_t.lt, idx_t.default,
    Bool.and_eq_true, idx_t.mk.injEq, ne_eq, not_and] at hi hj ⊢
  split_ifs <;> simp_all <;> omega

/-- Witness for the amended C4 theorem at the concrete pair (0, 5). -/
theorem is_valid_size_characterization_witness :
    ((⟨0, 5⟩ : idx_t).i ≤ SIZE_MAX ∧ (⟨0, 5⟩ : idx_t).j ≤ SIZE_MAX)
    ∧ (idx_t.is_valid_size ⟨0, 0⟩ = false
       ∧ idx_t.is_valid_size idx_t.default = false
       ∧ (idx_t.is_valid_size ⟨0, 5⟩ = true
          ↔ ((⟨0, 5⟩ : idx_t) ≠ ⟨0, 0⟩ ∧ (⟨0, 5⟩ : idx_t) ≠ idx_t.default))) :=
  ⟨⟨by decide, by decide⟩,
    is_valid_size_characterization ⟨0, 5⟩ (by decide) (by decide)⟩

/-- C5: for every input vector and pivot, the sorted-diagonal-first pipeline
yields a vector whose first element is the pivot, whose tail is strictly
ascending and duplicate-free, and whose tail never contains the pivot. -/
theorem vector_sorted_diagonal_first_spec (v : List Nat) (e : Nat) :
    (vector_sorted_diagonal_first_t v e).head? = some e
    ∧ List.Sorted (· < ·) (vector_sorted_diagonal_first_t v e).tail
    ∧ (vector_sorted_diagonal_first_t v e).tail.Nodup
    ∧ e ∉ (vector_sorted_diagonal_first_t v e).tail := by
  have htail : (vector_sorted_diagonal_first_t v e).tail
      = vector_sort_unique (vector_element_remove v e) e := rfl
  refine ⟨rfl, ?_, ?_, ?_⟩
  · rw [htail]; exact vector_sort_unique_sorted _ e
  · rw [htail]; exact (vector_sort_unique_sorted _ e).nodup
  · rw [htail]
    intro hmem
    have h1 := (mem_vector_sort_unique _ e e).1 hmem
    have h2 := List.mem_filter.1 h1
    simp at h2

/-- C6: for a strictly ascending duplicate-free input and a pivot, the sorted
pipeline yields a strictly ascending duplicate-free vector containing the
pivot exactly once, and a second application with the same pivot leaves the
vector unchanged. -/
theorem vector_sorted_spec (v : List Nat) (e : Nat)
    (h : List.Sorted (· < ·) v) :
    List.Sorted (· < ·) (vector_sorted_t v e)
    ∧ (vector_sorted_t v e).Nodup
    ∧ (vector_sorted_t v e).count e = 1
    ∧ vector_sorted_t (vector_sorted_t v e) e = vector_sorted_t v e := by
  have hs : List.Sorted (· < ·) (vector_sorted_t v e) :=
    vector_sort_unique_sorted _ e
  have hnd := hs.nodup
  have hmem : e ∈ vector_sorted_t v e := by
    unfold vector_sorted_t
    exact (mem_vector_sort_unique _ e e).2 (by simp [vector_element_push_back])
  refine ⟨hs, hnd, List.count_eq_one_of_mem hnd hmem, ?_⟩
  apply sorted_lt_eq_of_mem_iff (vector_sort_unique_sorted _ e) hs
  intro x
  rw [mem_vector_sort_unique]
  unfold vector_element_push_back
  rw [List.mem_append, List.mem_singleton]
  constructor
  · rintro (hx | rfl)
    · exact hx
    · exact hmem
  · exact fun hx => Or.inl hx

/-- Witness for C6 at the concrete input `v = [1, 3]`, pivot 2. -/
theorem vector_sorted_spec_witness :
    List.Sorted (· < ·) ([1, 3] : List Nat)
    ∧ (List.Sorted (· < ·) (vector_sorted_t [1, 3] 2)
       ∧ (vector_sorted_t [1, 3] 2).Nodup
       ∧ (vector_sorted_t [1, 3] 2).count 2 = 1
       ∧ vector_sorted_t (vector_sorted_t [1, 3] 2) 2
         = vector_sorted_t [1, 3] 2) :=
  ⟨by decide, vector_sorted_spec [1, 3] 2 (by decide)⟩

/-- C8: the `idx_t` comparison is irreflexive, transitive and total over
distinct pairs, and coincides with lexicographic row-major order; in
particular (2,3) < (2,5) < (3,0). -/
theorem idx_lt_strict_total_order (a b c : idx_t) :
    idx_t.lt a a = false
    ∧ (idx_t.lt a b = true → idx_t.lt b c = true → idx_t.lt a c = true)
    ∧ (a ≠ b → idx_t.lt a b = true ∨ idx_t.lt b a = true)
    ∧ (idx_t.lt a b = true ↔ (a.i < b.i ∨ (a.i = b.i ∧ a.j < b.j)))
    ∧ idx_t.lt ⟨2, 3⟩ ⟨2, 5⟩ = true
    ∧ idx_t.lt ⟨2, 5⟩ ⟨3, 0⟩ = true := by
  obtain ⟨ai, aj⟩ := a
  obtain ⟨bi, bj⟩ := b
  obtain ⟨ci, cj⟩ := c
  refine ⟨?_, ?_, ?_, ?_, by decide, by decide⟩
  · simp [idx_t.lt]
  · intro h1 h2
    simp only [idx_t.lt] at h1 h2 ⊢
    split_ifs at h1 h2 ⊢ <;> simp_all <;> omega
  · intro hne
    simp only [ne_eq, idx_t.mk.injEq, not_and] at hne
    simp only [idx_t.lt]
    split_ifs <;> simp_all <;> omega
  · simp only [idx_t.lt]
    split_ifs <;> simp_all <;> omega

/-- Witness for C8: applying transitivity at the concrete pairs (2,3),
(2,5), (3,0). -/
theorem idx_lt_strict_total_order_witness :
    idx_t.lt ⟨2, 3⟩ ⟨3, 0⟩ = true :=
  (idx_lt_strict_total_order ⟨2, 3⟩ ⟨2, 5⟩ ⟨3, 0⟩).2.1 (by decide) (by decide)

/- -- LAPACK solve adapter (`cf3/lss/LAPACK.hpp`). -/

/-- Numeric precision of the instantiating value type `T` of `LAPACK<T>`, as
discriminated by the `typeid` comparisons in `LAPACK::solve`. -/
inductive Precision where
  | double : Precision
  | float : Precision
  | other : Precision
deriving DecidableEq

/-- Modelled from the spec: `detail::dense_matrix_v` (defined in the
`detail/linearsystem.hpp` header, which is not among the sources) is dense
storage: a contiguous buffer `a` logically shaped (sizeI, sizeJ). -/
structure dense_matrix_v (α : Type) where
  sizeI : Nat
  sizeJ : Nat
  a : List α
deriving DecidableEq

/-- Modelled from the spec: the size of a dense buffer as an index pair. -/
def dense_matrix_v.size {α : Type} (m : dense_matrix_v α) : idx_t :=
  ⟨m.sizeI, m.sizeJ⟩

/-- Modelled from the spec: `clear()` empties the buffer
(the right-hand-side buffer is cleared to empty after a solve). -/
def dense_matrix_v.clear {α : Type} (_m : dense_matrix_v α) :
    dense_matrix_v α := ⟨0, 0, []⟩

/-- Buffers of a `LAPACK<T>` linear system: coefficient matrix `m_A`,
right-hand side `m_b`, solution `m_x`. -/
structure LAPACK (α : Type) where
  m_A : dense_matrix_v α
  m_b : dense_matrix_v α
  m_x : dense_matrix_v α
deriving DecidableEq

/-- Call contract of the external native routines `dgesv_` / `sgesv_`: from
`n`, `nrhs`, the column-major coefficient buffer and the right-hand-side
buffer, the routine produces the overwritten right-hand-side buffer (the
solution on success) and the integer status code `info`. -/
def gesv_t (α : Type) : Type := Nat → Nat → List α → List α → List α × Int

/-- Embedding of the diagnostic-message selection chain in `LAPACK::solve`
(the `-42` message elides the platform-dependent `typeid` name). -/
def lapack_message (err : Int) : String :=
  if err = -17 then "LAPACK: system matrix size must be square"
  else if err = -42 then "LAPACK: precision not implemented"
  else if err < 0 then
    "LAPACK: invalid " ++ toString err ++ "th argument to dgesv()/sgesv()"
  else if err > 0 then
    "LAPACK: triangular factor matrix U(" ++ toString err ++ ","
      ++ toString err ++ ") is zero, so A is singular (not invertible)"
  else ""

/-- Embedding of `LAPACK::solve`. `n` is `size(0)` (the matrix extent) and
`nrhs` is `size(2)` (the number of right-hand sides, modelled from the spec
since `detail/linearsystem.hpp` is not among the sources). A non-square
matrix sets `err = -17`; otherwise the routine matching the precision is
called and overwrites the right-hand-side buffer; an unsupported precision
sets `err = -42`. A nonzero `err` raises the selected diagnostic; on success
the right-hand-side buffer is swapped with the solution buffer and then
cleared. The result pairs the raised message (if any) with the final
buffers. -/
def LAPACK.solve {α : Type} (prec : Precision)
    (dgesv sgesv : gesv_t α) (s : LAPACK α) :
    Option String × LAPACK α :=
  let n := s.m_A.sizeI
  let nrhs := s.m_b.sizeJ
  let call :=
    if s.m_A.size.is_square_size = false then (s.m_b.a, (-17 : Int))
    else if prec = Precision.double then dgesv n nrhs s.m_A.a s.m_b.a
    else if prec = Precision.float then sgesv n nrhs s.m_A.a s.m_b.a
    else (s.m_b.a, (-42 : Int))
  let err := call.2
  let s1 : LAPACK α := { s with m_b := { s.m_b with a := call.1 } }
  if err ≠ 0 then (some (lapack_message err), s1)
  else
    let s2 : LAPACK α := { s1 with m_b := s1.m_x, m_x := s1.m_b }
    (none, { s2 with m_b := s2.m_b.clear })

/-- Embedding of `LAPACK::operator=`: `A() = _other.m_A; return *this;`. -/
def LAPACK.assign {α : Type} (target other : LAPACK α) : LAPACK α :=
  { target with m_A := other.m_A }

/-- Concrete native-routine oracle for witnesses: solves the diagonal system
diag(2,3) x = (4,9), reporting status 0 with solution (2,3). -/
def gesv_diag : gesv_t Int := fun _ _ _ _ => ([2, 3], 0)

/-- A second, different concrete native-routine oracle, used to exhibit that
error paths do not depend on the routine. -/
def gesv_sing : gesv_t Int := fun _ _ _ b => (b, 1)

/-- Concrete example system from the spec: A = diag(2,3) stored column-major,
b = (4,9), with a sized solution buffer. -/
def sys_diag : LAPACK Int := ⟨⟨2, 2, [2, 0, 0, 3]⟩, ⟨2, 1, [4, 9]⟩, ⟨2, 1, [0, 0]⟩⟩

/-- Concrete non-square example system (2 x 3 matrix). -/
def sys_nonsquare : LAPACK Int :=
  ⟨⟨2, 3, [1, 2, 3, 4, 5, 6]⟩, ⟨2, 1, [1, 1]⟩, ⟨2, 1, [0, 0]⟩⟩

/-- C2: whenever `solve` raises no exception, the matrix buffer is unchanged,
the right-hand-side buffer is left empty, the solution buffer holds exactly
what the dispatched native routine produced in the right-hand-side buffer,
and the matrix was square. -/
theorem solve_success_commits_solution {α : Type} (prec : Precision)
    (dgesv sgesv : gesv_t α) (s : LAPACK α)
    (h : (LAPACK.solve prec dgesv sgesv s).1 = none) :
    (LAPACK.solve prec dgesv sgesv s).2.m_A = s.m_A
    ∧ (LAPACK.solve prec dgesv sgesv s).2.m_b.a = []
    ∧ (LAPACK.solve prec dgesv sgesv s).2.m_x.a =
        (if prec = Precision.double
         then dgesv s.m_A.sizeI s.m_b.sizeJ s.m_A.a s.m_b.a
         else sgesv s.m_A.sizeI s.m_b.sizeJ s.m_A.a s.m_b.a).1
    ∧ s.m_A.sizeI = s.m_A.sizeJ := by
  simp only [LAPACK.solve] at h ⊢
  split_ifs at h ⊢ <;>
    simp_all [dense_matrix_v.size, idx_t.is_square_size, dense_matrix_v.clear]

/-- Witness for C2: solving the spec example diag(2,3) x = (4,9) through the
concrete oracle. -/
theorem solve_success_commits_solution_witness :
    (LAPACK.solve Precision.double gesv_diag gesv_sing sys_diag).1 = none
    ∧ ((LAPACK.solve Precision.double gesv_diag gesv_sing sys_diag).2.m_A
        = sys_diag.m_A
      ∧ (LAPACK.solve Precision.double gesv_diag gesv_sing sys_diag).2.m_b.a
        = []
      ∧ (LAPACK.solve Precision.double gesv_diag gesv_sing sys_diag).2.m_x.a =
          (if Precision.double = Precision.double
           then gesv_diag sys_diag.m_A.sizeI sys_diag.m_b.sizeJ
                  sys_diag.m_A.a sys_diag.m_b.a
           else gesv_sing sys_diag.m_A.sizeI sys_diag.m_b.sizeJ
                  sys_diag.m_A.a sys_diag.m_b.a).1
      ∧ sys_diag.m_A.sizeI = sys_diag.m_A.sizeJ) :=
  ⟨by decide,
    solve_success_commits_solution Precision.double gesv_diag gesv_sing
      sys_diag (by decide)⟩

/-- C7: solving a non-square system returns the dimension-error diagnostic
with the state unchanged, the outcome does not depend on either native
routine (so neither is invoked), and the diagnostic differs from every
native argument-validity diagnostic (argument positions -1 .. -8). -/
theorem solve_nonsquare_dimension_error {α : Type} (prec : Precision)
    (dgesv sgesv dgesv2 sgesv2 : gesv_t α) (s : LAPACK α)
    (h : s.m_A.sizeI ≠ s.m_A.sizeJ) :
    LAPACK.solve prec dgesv sgesv s
      = (some "LAPACK: system matrix size must be square", s)
    ∧ LAPACK.solve prec dgesv sgesv s = LAPACK.solve prec dgesv2 sgesv2 s
    ∧ (∀ k : Int, -8 ≤ k → k ≤ -1 →
        lapack_message k ≠ "LAPACK: system matrix size must be square") := by
  have hsq : s.m_A.size.is_square_size = false := by
    simp [dense_matrix_v.size, idx_t.is_square_size, h]
  refine ⟨?_, ?_, ?_⟩
  · simp only [LAPACK.solve]
    rw [if_pos hsq]
    simp [lapack_message]
  · simp only [LAPACK.solve]
    rw [if_pos hsq, if_pos hsq]
  · intro k h1 h2
    interval_cases k <;> decide

/-- Witness for C7 at the concrete 2 x 3 system. -/
theorem solve_nonsquare_dimension_error_witness :
    LAPACK.solve Precision.double gesv_diag gesv_sing sys_nonsquare
      = (some "LAPACK: system matrix size must be square", sys_nonsquare)
    ∧ LAPACK.solve Precision.double gesv_diag gesv_sing sys_nonsquare
      = LAPACK.solve Precision.double gesv_sing gesv_diag sys_nonsquare
    ∧ (∀ k : Int, -8 ≤ k → k ≤ -1 →
        lapack_message k ≠ "LAPACK: system matrix size must be square") :=
  solve_nonsquare_dimension_error Precision.double gesv_diag gesv_sing
    gesv_sing gesv_diag sys_nonsquare (by decide)

/-- C9: when solve fails before dispatching to a native routine (non-square
matrix, or a precision that is neither double nor float), an exception is
raised and the buffers A, b, x are exactly as before the call. -/
theorem solve_predispatch_failure_preserves_state {α : Type}
    (prec : Precision) (dgesv sgesv : gesv_t α) (s : LAPACK α)
    (h : s.m_A.sizeI ≠ s.m_A.sizeJ ∨ prec = Precision.other) :
    (LAPACK.solve prec dgesv sgesv s).2 = s
    ∧ (LAPACK.solve prec dgesv sgesv s).1 ≠ none := by
  simp only [LAPACK.solve]
  rcases h with h | h
  · have hsq : s.m_A.size.is_square_size = false := by
      simp [dense_matrix_v.size, idx_t.is_square_size, h]
    rw [if_pos hsq]
    simp
  · subst h
    by_cases hsq : s.m_A.size.is_square_size = false
    · rw [if_pos hsq]
      simp
    · rw [if_neg hsq]
      simp

/-- Witness for C9 at the concrete non-square system. -/
theorem solve_predispatch_failure_preserves_state_witness :
    (sys_nonsquare.m_A.sizeI ≠ sys_nonsquare.m_A.sizeJ
      ∨ Precision.double = Precision.other)
    ∧ ((LAPACK.solve Precision.double gesv_diag gesv_sing sys_nonsquare).2
        = sys_nonsquare
      ∧ (LAPACK.solve Precision.double gesv_diag gesv_sing sys_nonsquare).1
        ≠ none) :=
  ⟨Or.inl (by decide),
    solve_predispatch_failure_preserves_state Precision.double gesv_diag
      gesv_sing sys_nonsquare (Or.inl (by decide))⟩

/-- C10: assignment between LAPACK systems copies only the coefficient
matrix from the source; the right-hand-side and solution buffers of the
target are unchanged. -/
theorem assign_copies_only_matrix {α : Type} (target other : LAPACK α) :
    (LAPACK.assign target other).m_A = other.m_A
    ∧ (LAPACK.assign target other).m_b = target.m_b
    ∧ (LAPACK.assign target other).m_x = target.m_x :=
  ⟨rfl, rfl, rfl⟩

/- -- Generic read dispatch (`lss_utilities.hpp`, lines 352-429). The three
backend readers are external collaborators (only declared in the header);
they are passed as explicit function parameters obeying the documented
contract: report success as a boolean and fill the output buffers. -/

/-- Outcome of a backend dense read: the success flag the backend reports,
the size it determines and the dense grid it fills (values read in double
precision, modelled as `Rat`). -/
structure dense_read_result where
  success : Bool
  size : idx_t
  a : List (List Rat)
deriving DecidableEq

/-- Contract of a dense backend reader (`MatrixMarket::read_dense`,
`HarwellBoeing::read_dense`, `CSR::read_dense`): filename and orientation in,
reported success and outputs back. -/
def dense_reader_t : Type := String → Bool → dense_read_result

/-- Outcome of a backend sparse read: success flag, size, values and the two
coordinate index arrays. -/
structure sparse_read_result where
  success : Bool
  size : idx_t
  a : List Rat
  ia : List Int
  ja : List Int
deriving DecidableEq

/-- Contract of a sparse backend reader: filename, orientation and index
base in, reported success and outputs back. -/
def sparse_reader_t : Type := String → Bool → Int → sparse_read_result

/-- Embedding of `fname.substr(fname.find_last_of("."))`: the suffix of the
filename starting at its last dot, or `none` when there is no dot (the C++
call then raises `out_of_range`). -/
def ext_of (fname : String) : Option String :=
  let afterRev := fname.data.reverse.takeWhile (fun c => c ≠ '.')
  if afterRev.length = fname.data.length then none
  else some (String.mk ('.' :: afterRev.reverse))

/-- Embedding of the generic `read_dense<T>` dispatch, at `T = double` where
the backend writes straight into the caller buffer (for other `T` the
template stages through a double buffer, converts element-wise, and ends in
the same unconditional `return true`). The backend selected by the extension
is called, its boolean result is DISCARDED by the source, and `true` is
returned on every dispatched path; an unrecognized extension throws. -/
def read_dense (mm hb csr : dense_reader_t) (fname : String)
    (roworiented : Bool) : Except String (Bool × idx_t × List (List Rat)) :=
  match ext_of fname with
  | none => Except.error "out_of_range"
  | some ext =>
      if ext = ".mtx" then
        let r := mm fname roworiented
        Except.ok (true, r.size, r.a)
      else if ext = ".rua" then
        let r := hb fname roworiented
        Except.ok (true, r.size, r.a)
      else if ext = ".csr" then
        let r := csr fname roworiented
        Except.ok (true, r.size, r.a)
      else Except.error ("file format not detected (" ++ fname ++ ").")

/-- Embedding of the generic `read_sparse<T>` dispatch, at `T = double`;
like `read_dense` it discards the boolean reported by the selected backend
and unconditionally returns `true` on every dispatched path. -/
def read_sparse (mm hb csr : sparse_reader_t) (fname : String)
    (roworiented : Bool) (base : Int) :
    Except String (Bool × idx_t × List Rat × List Int × List Int) :=
  match ext_of fname with
  | none => Except.error "out_of_range"
  | some ext =>
      if ext = ".mtx" then
        let r := mm fname roworiented base
        Except.ok (true, r.size, r.a, r.ia, r.ja)
      else if ext = ".rua" then
        let r := hb fname roworiented base
        Except.ok (true, r.size, r.a, r.ia, r.ja)
      else if ext = ".csr" then
        let r := csr fname roworiented base
        Except.ok (true, r.size, r.a, r.ia, r.ja)
      else Except.error ("file format not detected (" ++ fname ++ ").")

/-- C1: the claim states the dispatch layer returns exactly the boolean the
selected backend reports; the source discards that boolean and returns true
unconditionally. Evaluation at the failing input: backends that report
failure (false) on the recognized filename "m.mtx", yet both dispatchers
report success. -/
theorem read_dispatch_masks_backend_failure :
    read_dense (fun _ _ => ⟨false, idx_t.default, []⟩)
        (fun _ _ => ⟨false, idx_t.default, []⟩)
        (fun _ _ => ⟨false, idx_t.default, []⟩) "m.mtx" true
      = Except.ok (true, idx_t.default, [])
    ∧ read_sparse (fun _ _ _ => ⟨false, idx_t.default, [], [], []⟩)
        (fun _ _ _ => ⟨false, idx_t.default, [], [], []⟩)
        (fun _ _ _ => ⟨false, idx_t.default, [], [], []⟩) "m.mtx" true 0
      = Except.ok (true, idx_t.default, [], [], []) :=
  ⟨by rfl, by rfl⟩

